import Mathlib

/-!
Verification of the employees proxy service (`src/api/employees.py`).

The development shallowly embeds the Python module: JSON-like Python values
become the inductive `PyVal`; Python truthiness, `dict.get`, `str.strip` and
iteration are modelled explicitly; code that can raise returns `Except`.
The paginated fetch loop is embedded as a fuel-indexed function over an
abstract upstream (one reply per URL, modelling `requests.get` with the
fixed token headers), which also records the trace of URLs requested.
-/

/-- JSON-like Python values as handled by the module (`resp.json()` output). -/
inductive PyVal where
  | null
  | bool (b : Bool)
  | int (n : Int)
  | str (s : String)
  | list (xs : List PyVal)
  | dict (kvs : List (String × PyVal))

/-- Python truthiness (`if x:`) on the modelled values. -/
def truthy : PyVal → Bool
  | .null => false
  | .bool b => b
  | .int n => n != 0
  | .str s => s != ""
  | .list xs => !xs.isEmpty
  | .dict kvs => !kvs.isEmpty

/-- Whether the value is a mapping (`isinstance(x, dict)`). -/
def PyVal.isDict : PyVal → Bool
  | .dict _ => true
  | _ => false

/-- `d.get(k, dflt)` on a mapping: the stored value when the key is present
(even when that value is `None`), else the default. Non-mapping receivers
never reach this function in the embedding (the source guards every call
with `isinstance` except the one modelled separately in `convert_item`). -/
def PyVal.getd (v : PyVal) (k : String) (dflt : PyVal) : PyVal :=
  match v with
  | .dict kvs =>
    match kvs.lookup k with
    | some w => w
    | Option.none => dflt
  | _ => dflt

/-- Characters removed by Python `str.strip()` (ASCII whitespace). -/
def pySpace (c : Char) : Bool :=
  c = ' ' || c = '\t' || c = '\n' || c = '\r' || c = Char.ofNat 11 || c = Char.ofNat 12

/-- Python `s.strip()`: drop leading and trailing whitespace. -/
def pyStrip (s : String) : String :=
  String.mk (((s.data.dropWhile pySpace).reverse.dropWhile pySpace).reverse)

/-- Python `a + " " + b` followed by `.strip()`: defined exactly when both
operands are strings, otherwise a `TypeError` is raised. -/
def pyAddStrip (a b : PyVal) : Except String PyVal :=
  match a, b with
  | .str x, .str y => .ok (.str (pyStrip (x ++ " " ++ y)))
  | _, _ => .error "TypeError: can only concatenate str to str"

/-- Embedding of `_extract_name`: the name-normalization fallback chain.
Mirrors the source line by line: non-dict input yields `""`; a truthy
`full_name` is returned verbatim; else a truthy `name`; else a truthy
`first_name` is concatenated with `last_name` (default `""` when the key is
absent — but the stored value, possibly `None`, when present) and stripped,
raising `TypeError` unless both operands are strings; else the `id` value
(default `""`). -/
def extract_name (emp : PyVal) : Except String PyVal :=
  if emp.isDict = false then .ok (.str "")
  else
    let full := emp.getd "full_name" PyVal.null
    if truthy full then .ok full
    else
      let nm := emp.getd "name" PyVal.null
      if truthy nm then .ok nm
      else
        let first := emp.getd "first_name" PyVal.null
        if truthy first then
          pyAddStrip first (emp.getd "last_name" (.str ""))
        else .ok (emp.getd "id" (.str ""))

/-! ## Paginated fetcher -/

/-- `HTTPException(status_code, detail)` raised by the fetcher. -/
structure HTTPException where
  status_code : Nat
  detail : String

/-- One reply of the upstream service for a requested URL: either a
transport-level failure (`requests.RequestException`) or an HTTP response
with a status code and a parsed JSON body. -/
inductive UpstreamReply where
  | transportError (msg : String)
  | response (status : Nat) (body : PyVal)

/-- `resp.ok` of the HTTP library: status strictly below 400. -/
def respOk (status : Nat) : Bool := status < 400

/-- The fixed upstream collection URL (`WORKABLE_BASE`). -/
def WORKABLE_BASE : String := "https://api.workable.com/v3/employees"

/-- One output record: the dict `{"id": ..., "name": ...}` built per item. -/
structure EmployeeRecord where
  id : PyVal
  name : PyVal

/-- Conversion of one page item `e` into a record. `e.get("id")` raises
`AttributeError` when `e` is not a mapping; on a mapping, the id value is
passed through verbatim (possibly `None`) and the name comes from
`extract_name`, which may itself raise. -/
def convert_item (e : PyVal) : Except String EmployeeRecord :=
  match e with
  | .dict _ =>
    match extract_name e with
    | .ok nm => .ok ⟨e.getd "id" PyVal.null, nm⟩
    | .error m => .error m
  | _ => .error "AttributeError: object has no attribute get"

/-- The `for e in page_items` loop body: convert items in order, stopping at
the first raised exception. -/
def convertItems : List PyVal → Except String (List EmployeeRecord)
  | [] => .ok []
  | e :: es =>
    match convert_item e with
    | .ok r =>
      match convertItems es with
      | .ok rs => .ok (r :: rs)
      | .error m => .error m
    | .error m => .error m

/-- The item-list extraction ladder on a page body, before the final
`if not page_items` truthiness check:
`page_items = data.get("employees")` when the body is a mapping, the body
itself when it is a bare list, else `None`. -/
def pageItemsVal (data : PyVal) : PyVal :=
  match data with
  | .dict _ => data.getd "employees" PyVal.null
  | .list _ => data
  | _ => PyVal.null

/-- Python iteration over the chosen `page_items` value: lists yield their
elements, strings their characters, mappings their keys; other values raise
`TypeError`. -/
def pyIter : PyVal → Except String (List PyVal)
  | .list xs => .ok xs
  | .str s => .ok (s.data.map (fun c => .str (String.mk [c])))
  | .dict kvs => .ok (kvs.map (fun kv => .str kv.fst))
  | _ => .error "TypeError: object is not iterable"

/-- Records contributed by one page body: a falsy `page_items` is replaced
by the empty list (`if not page_items: page_items = []`), otherwise the
value is iterated and each item converted. -/
def pageRecords (data : PyVal) : Except String (List EmployeeRecord) :=
  let items := pageItemsVal data
  if truthy items then
    match pyIter items with
    | .ok xs => convertItems xs
    | .error m => .error m
  else .ok []

/-- The next URL computed from a page body:
`paging = data.get("paging") if isinstance(data, dict) else None` followed by
`url = paging.get("next") if paging and isinstance(paging, dict) else None`. -/
def nextUrl (data : PyVal) : PyVal :=
  let paging := match data with
    | .dict _ => data.getd "paging" PyVal.null
    | _ => PyVal.null
  if truthy paging then
    match paging with
    | .dict _ => paging.getd "next" PyVal.null
    | _ => PyVal.null
  else PyVal.null

/-- Outcome of one fetch: `ok` with the accumulated records, `err` with a
raised `HTTPException`, or `crash` with an uncaught exception message. Each
outcome carries the trace of URLs requested upstream, in order. -/
inductive FetchResult where
  | ok (employees : List EmployeeRecord) (trace : List PyVal)
  | err (e : HTTPException) (trace : List PyVal)
  | crash (msg : String) (trace : List PyVal)

/-- The `while url:` fetch loop, indexed by fuel (number of remaining
iterations the model is willing to unfold; `Option.none` means the fuel ran
out before the loop terminated). Mirrors the source: a falsy `url` ends the
loop returning the accumulator; otherwise one GET is issued, a transport
error becomes a 502, a 401 a 401, any other non-ok status a 502 naming the
status; then the page's records are appended and the loop continues at the
body's `paging.next`. -/
def fetch_loop (up : PyVal → UpstreamReply) :
    Nat → PyVal → List EmployeeRecord → List PyVal → Option FetchResult
  | 0, url, acc, tr => if truthy url then Option.none else some (.ok acc tr)
  | fuel+1, url, acc, tr =>
    if truthy url then
      match up url with
      | .transportError m => some (.err ⟨502, "Network error: " ++ m⟩ (tr ++ [url]))
      | .response status body =>
        if status = 401 then
          some (.err ⟨401, "Unauthorized: invalid token"⟩ (tr ++ [url]))
        else if respOk status = false then
          some (.err ⟨502, "Upstream error: " ++ toString status⟩ (tr ++ [url]))
        else
          match pageRecords body with
          | .error m => some (.crash m (tr ++ [url]))
          | .ok recs => fetch_loop up fuel (nextUrl body) (acc ++ recs) (tr ++ [url])
    else some (.ok acc tr)

/-- `fetch_all_employees(token)`: run the loop from the fixed base URL with
an empty accumulator. The upstream function abstracts `requests.get` with
the token's headers already fixed. -/
def fetch_all_employees (up : PyVal → UpstreamReply) (fuel : Nat) : Option FetchResult :=
  fetch_loop up fuel (.str WORKABLE_BASE) [] []

/-! ## CSV presenter -/

mutual
/-- Python `repr` on the modelled values (container elements are shown with
`repr`; string escaping inside `repr` is elided — no emitted record in this
module nests containers, so only the scalar cases are ever exercised). -/
def pyRepr : PyVal → String
  | .null => "None"
  | .bool b => if b then "True" else "False"
  | .int n => toString n
  | .str s => "'" ++ s ++ "'"
  | .list xs => "[" ++ pyReprList xs ++ "]"
  | .dict kvs => "\x7b" ++ pyReprDict kvs ++ "\x7d"

/-- Comma-joined `repr` of list elements. -/
def pyReprList : List PyVal → String
  | [] => ""
  | [x] => pyRepr x
  | x :: y :: xs => pyRepr x ++ ", " ++ pyReprList (y :: xs)

/-- Comma-joined `repr` of dict entries. -/
def pyReprDict : List (String × PyVal) → String
  | [] => ""
  | [(k, v)] => "'" ++ k ++ "': " ++ pyRepr v
  | (k, v) :: e :: kvs => "'" ++ k ++ "': " ++ pyRepr v ++ ", " ++ pyReprDict (e :: kvs)
end

/-- Python `str()` of a value (strings unchanged, others via `repr`-style). -/
def pyStr : PyVal → String
  | .str s => s
  | v => pyRepr v

/-- The `csv.writer` conversion of one cell: `None` becomes the empty
field, strings pass through, anything else is `str()`-converted. -/
def csvCell : PyVal → String
  | PyVal.null => ""
  | .str s => s
  | v => pyStr v

/-- QUOTE_MINIMAL: a field is quoted iff it contains the delimiter, the
quote character, or a line-terminator character. -/
def needsQuote (cs : List Char) : Bool :=
  cs.any fun c => c = ',' || c = '"' || c = '\r' || c = '\n'

/-- Double every quote character in a field body. -/
def escQuotes : List Char → List Char
  | [] => []
  | c :: cs => if c = '"' then '"' :: '"' :: escQuotes cs else c :: escQuotes cs

/-- Render one field, quoting and escaping when needed. -/
def quoteField (cs : List Char) : List Char :=
  if needsQuote cs then '"' :: (escQuotes cs ++ ['"']) else cs

/-- Comma-join the rendered fields of a row. -/
def rowBody : List (List Char) → List Char
  | [] => []
  | f :: fs =>
    match fs with
    | [] => quoteField f
    | _ :: _ => quoteField f ++ ',' :: rowBody fs

/-- One CSV row including the `\r\n` terminator used by `csv.writer`. -/
def rowChars (fs : List (List Char)) : List Char := rowBody fs ++ ['\r', '\n']

/-- `writer.writerow(fields)` as a string chunk. -/
def writerow (fs : List String) : String := String.mk (rowChars (fs.map String.data))

/-- The `iter_csv` generator: the header chunk `id,name`, then one chunk per
record with the id (empty when null) and name cells. -/
def iter_csv (employees : List EmployeeRecord) : List String :=
  writerow ["id", "name"] ::
    employees.map (fun e => writerow [csvCell e.id, csvCell e.name])

/-- States of the CSV reader automaton: inside an unquoted field, inside a
quoted field, just after a quote while inside a quoted field (either the
closing quote or the first half of a doubled quote), or just after a
carriage return outside quotes. -/
inductive CsvState where
  | plain
  | quoted
  | afterQuote
  | sawCR

/-- A conventional CSV reader over characters, one character per step.
`acc` is the current field, `row` the fields finished in the current row,
`rows` the rows finished so far. Quoted fields may contain any character;
a doubled quote inside a quoted field is a literal quote; rows end at
`\r\n` or `\n`. -/
def csvParseAux : CsvState → List Char → List (List Char) → List (List (List Char)) →
    List Char → List (List (List Char))
  | st, acc, row, rows, [] =>
    match st with
    | .plain => if acc = [] ∧ row = [] then rows else rows ++ [row ++ [acc]]
    | .sawCR => rows ++ [row ++ [acc ++ ['\r']]]
    | _ => rows ++ [row ++ [acc]]
  | .plain, acc, row, rows, c :: cs =>
    if c = '"' then csvParseAux .quoted acc row rows cs
    else if c = ',' then csvParseAux .plain [] (row ++ [acc]) rows cs
    else if c = '\n' then csvParseAux .plain [] [] (rows ++ [row ++ [acc]]) cs
    else if c = '\r' then csvParseAux .sawCR acc row rows cs
    else csvParseAux .plain (acc ++ [c]) row rows cs
  | .sawCR, acc, row, rows, c :: cs =>
    if c = '\n' then csvParseAux .plain [] [] (rows ++ [row ++ [acc]]) cs
    else if c = '\r' then csvParseAux .sawCR (acc ++ ['\r']) row rows cs
    else if c = '"' then csvParseAux .quoted (acc ++ ['\r']) row rows cs
    else if c = ',' then csvParseAux .plain [] (row ++ [acc ++ ['\r']]) rows cs
    else csvParseAux .plain (acc ++ ['\r', c]) row rows cs
  | .quoted, acc, row, rows, c :: cs =>
    if c = '"' then csvParseAux .afterQuote acc row rows cs
    else csvParseAux .quoted (acc ++ [c]) row rows cs
  | .afterQuote, acc, row, rows, c :: cs =>
    if c = '"' then csvParseAux .quoted (acc ++ ['"']) row rows cs
    else if c = ',' then csvParseAux .plain [] (row ++ [acc]) rows cs
    else if c = '\n' then csvParseAux .plain [] [] (rows ++ [row ++ [acc]]) cs
    else if c = '\r' then csvParseAux .sawCR acc row rows cs
    else csvParseAux .plain (acc ++ [c]) row rows cs

/-- Parse a CSV text into rows of string fields. -/
def csvParse (s : String) : List (List String) :=
  (csvParseAux .plain [] [] [] s.data).map (fun r => r.map String.mk)

/-! ## HTTP endpoints -/

/-- Result of one endpoint invocation: a 200 body, a raised
`HTTPException`, or an unhandled exception (framework 500). -/
inductive EndpointResult (α : Type) where
  | ok (body : α)
  | httpError (e : HTTPException)
  | serverError (msg : String)

/-- The JSON object for one record. -/
def employeeJson (e : EmployeeRecord) : PyVal := .dict [("id", e.id), ("name", e.name)]

/-- The JSON envelope `{"employees": [...]}` returned by `api_employees`. -/
def employeesEnvelope (es : List EmployeeRecord) : PyVal :=
  .dict [("employees", .list (es.map employeeJson))]

/-- `POST /api/employees`: fetch everything, wrap in the JSON envelope. -/
def api_employees (up : PyVal → UpstreamReply) (fuel : Nat) :
    Option (EndpointResult PyVal) :=
  match fetch_all_employees up fuel with
  | Option.none => Option.none
  | some (.ok es _) => some (.ok (employeesEnvelope es))
  | some (.err e _) => some (.httpError e)
  | some (.crash m _) => some (.serverError m)

/-- `POST /api/employees/csv`: fetch everything, stream the CSV chunks. -/
def api_employees_csv (up : PyVal → UpstreamReply) (fuel : Nat) :
    Option (EndpointResult (List String)) :=
  match fetch_all_employees up fuel with
  | Option.none => Option.none
  | some (.ok es _) => some (.ok (iter_csv es))
  | some (.err e _) => some (.httpError e)
  | some (.crash m _) => some (.serverError m)

/-- The (id, name) pairs presented by the JSON envelope, when the body has
the envelope shape. -/
def jsonPairs (body : PyVal) : Option (List (PyVal × PyVal)) :=
  match body with
  | .dict [("employees", .list items)] =>
    items.mapM fun it =>
      match it with
      | .dict [("id", i), ("name", n)] => some (i, n)
      | _ => Option.none
  | _ => Option.none

/-- The (id, name) pairs presented by the CSV chunks: concatenate, parse
with the CSV reader, require the `id,name` header, and read each remaining
row as one two-field pair. -/
def csvPairs (chunks : List String) : Option (List (String × String)) :=
  match csvParse (String.join chunks) with
  | [] => Option.none
  | hdr :: rows =>
    if hdr = ["id", "name"] then
      rows.mapM fun r =>
        match r with
        | [a, b] => some (a, b)
        | _ => Option.none
    else Option.none

/-! ## Concrete upstreams used by witnesses and counterexamples -/

/-- A well-formed page body with an item list and a next link. -/
def mkPageBody (items : List PyVal) (nxt : Option String) : PyVal :=
  .dict [("employees", .list items),
         ("paging", .dict [("next", match nxt with | some u => .str u | Option.none => PyVal.null)])]

/-- Item `i` of the mock upstreams: `{"id": "<i>", "name": "E<i>"}`. -/
def mockItem (i : Nat) : PyVal :=
  .dict [("id", .str (toString i)), ("name", .str ("E" ++ toString i))]

/-- The record produced for `mockItem i`. -/
def mockRecord (i : Nat) : EmployeeRecord := ⟨.str (toString i), .str ("E" ++ toString i)⟩

/-- Mock upstream serving three linked pages of two items each. -/
def mockUp3 : PyVal → UpstreamReply := fun u =>
  match u with
  | .str s =>
    if s = WORKABLE_BASE then .response 200 (mkPageBody [mockItem 1, mockItem 2] (some "p2"))
    else if s = "p2" then .response 200 (mkPageBody [mockItem 3, mockItem 4] (some "p3"))
    else if s = "p3" then .response 200 (mkPageBody [mockItem 5, mockItem 6] Option.none)
    else .transportError "no route to host"
  | _ => .transportError "invalid url"

example :
    fetch_all_employees mockUp3 3 =
      some (.ok [mockRecord 1, mockRecord 2, mockRecord 3, mockRecord 4, mockRecord 5, mockRecord 6]
        [.str WORKABLE_BASE, .str "p2", .str "p3"]) := rfl

example : iter_csv [⟨.str "1", .str "Jane Doe"⟩, ⟨.str "2", .str "Bob, Jr."⟩] =
    ["id,name\r\n", "1,Jane Doe\r\n", "2,\"Bob, Jr.\"\r\n"] := rfl

example :
    csvParse (String.join (iter_csv [⟨.str "1", .str "Jane Doe"⟩, ⟨.str "2", .str "Bob, Jr."⟩])) =
      [["id", "name"], ["1", "Jane Doe"], ["2", "Bob, Jr."]] := rfl

example : csvCell PyVal.null = "" := rfl

/-! ## Fetch-loop lemmas -/

theorem fetch_loop_stop (up : PyVal → UpstreamReply) (fuel : Nat) (url : PyVal)
    (acc : List EmployeeRecord) (tr : List PyVal) (h : truthy url = false) :
    fetch_loop up fuel url acc tr = some (.ok acc tr) := by
  cases fuel <;> simp [fetch_loop, h]

theorem fetch_loop_transport (up : PyVal → UpstreamReply) (fuel : Nat) (url : PyVal)
    (acc : List EmployeeRecord) (tr : List PyVal) (m : String)
    (hu : truthy url = true) (h : up url = .transportError m) :
    fetch_loop up (fuel + 1) url acc tr =
      some (.err ⟨502, "Network error: " ++ m⟩ (tr ++ [url])) := by
  simp [fetch_loop, hu, h]

theorem fetch_loop_401 (up : PyVal → UpstreamReply) (fuel : Nat) (url : PyVal)
    (acc : List EmployeeRecord) (tr : List PyVal) (body : PyVal)
    (hu : truthy url = true) (h : up url = .response 401 body) :
    fetch_loop up (fuel + 1) url acc tr =
      some (.err ⟨401, "Unauthorized: invalid token"⟩ (tr ++ [url])) := by
  simp [fetch_loop, hu, h]

theorem fetch_loop_badStatus (up : PyVal → UpstreamReply) (fuel : Nat) (url : PyVal)
    (acc : List EmployeeRecord) (tr : List PyVal) (st : Nat) (body : PyVal)
    (hu : truthy url = true) (h : up url = .response st body)
    (h401 : st ≠ 401) (hok : respOk st = false) :
    fetch_loop up (fuel + 1) url acc tr =
      some (.err ⟨502, "Upstream error: " ++ toString st⟩ (tr ++ [url])) := by
  simp [fetch_loop, hu, h, h401, hok]

theorem fetch_loop_okPage (up : PyVal → UpstreamReply) (fuel : Nat) (url : PyVal)
    (acc : List EmployeeRecord) (tr : List PyVal) (st : Nat) (body : PyVal)
    (recs : List EmployeeRecord)
    (hu : truthy url = true) (h : up url = .response st body)
    (h401 : st ≠ 401) (hok : respOk st = true) (hrec : pageRecords body = .ok recs) :
    fetch_loop up (fuel + 1) url acc tr =
      fetch_loop up fuel (nextUrl body) (acc ++ recs) (tr ++ [url]) := by
  simp [fetch_loop, hu, h, h401, hok, hrec]

theorem fetch_loop_crashPage (up : PyVal → UpstreamReply) (fuel : Nat) (url : PyVal)
    (acc : List EmployeeRecord) (tr : List PyVal) (st : Nat) (body : PyVal) (m : String)
    (hu : truthy url = true) (h : up url = .response st body)
    (h401 : st ≠ 401) (hok : respOk st = true) (hrec : pageRecords body = .error m) :
    fetch_loop up (fuel + 1) url acc tr = some (.crash m (tr ++ [url])) := by
  simp [fetch_loop, hu, h, h401, hok, hrec]

/-! ## Page chains: the abstract model of a well-formed paginated upstream -/

/-- One upstream page: its item list and its `paging.next` link. -/
structure Page where
  items : List PyVal
  next : Option String

/-- The JSON body of a page. -/
def Page.body (p : Page) : PyVal := mkPageBody p.items p.next

/-- The records a page contributes (empty when conversion raises). -/
def pageRecs (p : Page) : List EmployeeRecord :=
  match convertItems p.items with
  | .ok rs => rs
  | .error _ => []

/-- All items of the page convert without raising. -/
def pageConverts (p : Page) : Prop := ∃ rs, convertItems p.items = .ok rs

theorem pageItemsVal_body (p : Page) : pageItemsVal p.body = .list p.items := rfl

theorem nextUrl_body (p : Page) :
    nextUrl p.body = (match p.next with | some u => .str u | Option.none => PyVal.null) := rfl

theorem nextUrl_body_none (p : Page) (h : p.next = Option.none) :
    nextUrl p.body = PyVal.null := by rw [nextUrl_body, h]

theorem nextUrl_body_some (p : Page) (u : String) (h : p.next = some u) :
    nextUrl p.body = .str u := by rw [nextUrl_body, h]

theorem pageRecords_body (p : Page) (h : pageConverts p) :
    pageRecords p.body = .ok (pageRecs p) := by
  obtain ⟨rs, hrs⟩ := h
  unfold pageRecords
  rw [pageItemsVal_body]
  rcases hi : p.items with _ | ⟨a, as⟩
  · simp [truthy, pageRecs, hi, convertItems]
  · rw [hi] at hrs
    simp [truthy, pyIter, pageRecs, hi, hrs]

/-- `up` serves, starting at `url`, the chain of pages `pages` whose later
URLs are `us`: each page is a 200 response at its URL, each non-final page
links to the next URL, and the final page has a null `next`. URLs are
non-empty strings (so the loop condition holds at each of them). -/
inductive ServesChain (up : PyVal → UpstreamReply) : String → List String → List Page → Prop
  | last (url : String) (p : Page) (hne : url ≠ "")
      (hu : up (.str url) = .response 200 p.body) (hn : p.next = Option.none) :
      ServesChain up url [] [p]
  | cons (url nxt : String) (us : List String) (p : Page) (ps : List Page) (hne : url ≠ "")
      (hu : up (.str url) = .response 200 p.body) (hn : p.next = some nxt)
      (rest : ServesChain up nxt us ps) :
      ServesChain up url (nxt :: us) (p :: ps)

theorem ServesChain.length_eq {up : PyVal → UpstreamReply} {url : String}
    {us : List String} {pages : List Page} (h : ServesChain up url us pages) :
    us.length + 1 = pages.length := by
  induction h with
  | last _ _ _ _ _ => rfl
  | cons _ _ _ _ _ _ _ _ _ ih => simpa using ih

/-- Running the loop over a served chain with enough fuel appends exactly the
concatenation of the pages' records, in page order, and requests exactly the
chain's URLs, in order. -/
theorem fetch_loop_chain (up : PyVal → UpstreamReply) {url : String}
    {us : List String} {pages : List Page} (h : ServesChain up url us pages)
    (hconv : ∀ p ∈ pages, pageConverts p) :
    ∀ (fuel : Nat) (acc : List EmployeeRecord) (tr : List PyVal),
      pages.length ≤ fuel →
      fetch_loop up fuel (PyVal.str url) acc tr =
        some (.ok (acc ++ (pages.map pageRecs).flatten)
          (tr ++ (url :: us).map PyVal.str)) := by
  induction h with
  | last url p hne hu hn =>
    intro fuel acc tr hfuel
    simp only [List.length_cons, List.length_nil] at hfuel
    obtain ⟨fuel, rfl⟩ : ∃ k, fuel = k + 1 := ⟨fuel - 1, by omega⟩
    have ht : truthy (.str url) = true := by simp [truthy, hne]
    rw [fetch_loop_okPage up fuel _ acc tr 200 p.body (pageRecs p) ht hu (by decide)
      (by decide) (pageRecords_body p (hconv p (by simp)))]
    rw [nextUrl_body_none p hn]
    rw [fetch_loop_stop up fuel _ _ _ (by simp [truthy])]
    simp
  | cons url nxt us p ps hne hu hn rest ih =>
    intro fuel acc tr hfuel
    simp only [List.length_cons] at hfuel
    obtain ⟨fuel, rfl⟩ : ∃ k, fuel = k + 1 := ⟨fuel - 1, by omega⟩
    have ht : truthy (.str url) = true := by simp [truthy, hne]
    rw [fetch_loop_okPage up fuel _ acc tr 200 p.body (pageRecs p) ht hu (by decide)
      (by decide) (pageRecords_body p (hconv p (by simp)))]
    rw [nextUrl_body_some p nxt hn]
    rw [ih (fun q hq => hconv q (by simp [hq])) fuel (acc ++ pageRecs p)
      (tr ++ [PyVal.str url]) (by omega)]
    simp

/-- C1: `_extract_name` follows the strict fallback order: a truthy
`full_name` is returned verbatim (even when `name` is present); else a
truthy `name`; else a truthy `first_name` yields
`strip(first_name + " " + last_name)` with a missing `last_name` read as
`""`; else the `id` value when present and `""` otherwise; a non-mapping
input yields `""`. -/
theorem extract_name_fallback (emp : PyVal) :
    (emp.isDict = false → extract_name emp = .ok (.str "")) ∧
    (emp.isDict = true → truthy (emp.getd "full_name" PyVal.null) = true →
      extract_name emp = .ok (emp.getd "full_name" PyVal.null)) ∧
    (emp.isDict = true → truthy (emp.getd "full_name" PyVal.null) = false →
      truthy (emp.getd "name" PyVal.null) = true →
      extract_name emp = .ok (emp.getd "name" PyVal.null)) ∧
    (∀ f l, emp.isDict = true → truthy (emp.getd "full_name" PyVal.null) = false →
      truthy (emp.getd "name" PyVal.null) = false →
      emp.getd "first_name" PyVal.null = .str f → f ≠ "" →
      emp.getd "last_name" (.str "") = .str l →
      extract_name emp = .ok (.str (pyStrip (f ++ " " ++ l)))) ∧
    (emp.isDict = true → truthy (emp.getd "full_name" PyVal.null) = false →
      truthy (emp.getd "name" PyVal.null) = false →
      truthy (emp.getd "first_name" PyVal.null) = false →
      extract_name emp = .ok (emp.getd "id" (.str ""))) := by
  refine ⟨?_, ?_, ?_, ?_, ?_⟩
  · intro h
    simp [extract_name, h]
  · intro h h1
    simp [extract_name, h, h1]
  · intro h h1 h2
    simp [extract_name, h, h1, h2]
  · intro f l h h1 h2 h3 h4 h5
    have ht : truthy (PyVal.str f) = true := by simp [truthy, h4]
    simp [extract_name, h, h1, h2, h3, h5, ht, pyAddStrip]
  · intro h h1 h2 h3
    simp [extract_name, h, h1, h2, h3]

/-- C1 witness: the five concrete examples listed in the claim, each
obtained from the fallback theorem. -/
theorem extract_name_fallback_witness :
    extract_name (.dict [("full_name", .str "A"), ("name", .str "B")]) = .ok (.str "A") ∧
    extract_name (.dict [("name", .str "B"), ("first_name", .str "C")]) = .ok (.str "B") ∧
    extract_name (.dict [("first_name", .str "C"), ("last_name", .str "D")]) = .ok (.str "C D") ∧
    extract_name (.dict [("first_name", .str "C")]) = .ok (.str "C") ∧
    extract_name (.dict [("id", .str "X")]) = .ok (.str "X") ∧
    extract_name (.dict []) = .ok (.str "") ∧
    extract_name (.str "plain") = .ok (.str "") := by
  refine ⟨?_, ?_, ?_, ?_, ?_, ?_, ?_⟩
  · have h := (extract_name_fallback (.dict [("full_name", .str "A"), ("name", .str "B")])).2.1
      rfl rfl
    simpa using h
  · have h := (extract_name_fallback (.dict [("name", .str "B"), ("first_name", .str "C")])).2.2.1
      rfl rfl rfl
    simpa using h
  · have h := (extract_name_fallback
      (.dict [("first_name", .str "C"), ("last_name", .str "D")])).2.2.2.1 "C" "D"
      rfl rfl rfl rfl (by decide) rfl
    simpa using h
  · have h := (extract_name_fallback (.dict [("first_name", .str "C")])).2.2.2.1 "C" ""
      rfl rfl rfl rfl (by decide) rfl
    simpa using h
  · have h := (extract_name_fallback (.dict [("id", .str "X")])).2.2.2.2 rfl rfl rfl rfl
    simpa using h
  · have h := (extract_name_fallback (.dict [])).2.2.2.2 rfl rfl rfl rfl
    simpa using h
  · have h := (extract_name_fallback (.str "plain")).1 rfl
    simpa using h

/-- C3: over any finite well-formed chain of upstream pages starting at the
base URL, `fetch_all_employees` returns exactly the concatenation, in page
order, of each page's converted records in item order (no deduplication, no
reordering), and requests exactly one URL per page. -/
theorem fetch_chain_concat (up : PyVal → UpstreamReply) (us : List String)
    (pages : List Page) (fuel : Nat)
    (h : ServesChain up WORKABLE_BASE us pages)
    (hconv : ∀ p ∈ pages, pageConverts p) (hfuel : pages.length ≤ fuel) :
    fetch_all_employees up fuel =
      some (.ok ((pages.map pageRecs).flatten) ((WORKABLE_BASE :: us).map PyVal.str)) ∧
    ((WORKABLE_BASE :: us).map PyVal.str).length = pages.length := by
  constructor
  · have hl := fetch_loop_chain up h hconv fuel [] [] hfuel
    simpa [fetch_all_employees] using hl
  · simpa using h.length_eq

/-- C3 witness: a mock upstream serving 3 pages of 2 items each linked via
`paging.next` yields exactly the 6 records in page-then-item order, with
exactly 3 upstream calls. -/
theorem fetch_chain_concat_witness :
    fetch_all_employees mockUp3 3 =
      some (.ok [mockRecord 1, mockRecord 2, mockRecord 3, mockRecord 4, mockRecord 5,
        mockRecord 6] [.str WORKABLE_BASE, .str "p2", .str "p3"]) ∧
    ([PyVal.str WORKABLE_BASE, .str "p2", .str "p3"] : List PyVal).length = 3 := by
  have hchain : ServesChain mockUp3 WORKABLE_BASE ["p2", "p3"]
      [⟨[mockItem 1, mockItem 2], some "p2"⟩, ⟨[mockItem 3, mockItem 4], some "p3"⟩,
        ⟨[mockItem 5, mockItem 6], Option.none⟩] := by
    refine .cons _ "p2" _ _ _ (by decide) rfl rfl
      (.cons _ "p3" _ _ _ (by decide) rfl rfl (.last _ _ (by decide) rfl rfl))
  have h := fetch_chain_concat mockUp3 ["p2", "p3"] _ 3 hchain ?_ (by simp)
  · exact ⟨h.1.trans rfl, rfl⟩
  · rintro p hp
    simp only [List.mem_cons, List.not_mem_nil, or_false] at hp
    rcases hp with rfl | rfl | rfl
    · exact ⟨_, rfl⟩
    · exact ⟨_, rfl⟩
    · exact ⟨_, rfl⟩

/-- The `HTTPException` the fetch loop raises for a given upstream reply, if
any: transport failures map to 502 with the error text in the detail, a 401
response to a local 401, and any other non-ok status to 502 naming the
status code. -/
def failReply : UpstreamReply → Option HTTPException
  | .transportError m => some ⟨502, "Network error: " ++ m⟩
  | .response st _ =>
    if st = 401 then some ⟨401, "Unauthorized: invalid token"⟩
    else if respOk st = false then some ⟨502, "Upstream error: " ++ toString st⟩
    else Option.none

theorem fetch_loop_failStep (up : PyVal → UpstreamReply) (fuel : Nat) (url : PyVal)
    (acc : List EmployeeRecord) (tr : List PyVal) (e : HTTPException)
    (hu : truthy url = true) (hf : failReply (up url) = some e) :
    fetch_loop up (fuel + 1) url acc tr = some (.err e (tr ++ [url])) := by
  rcases hr : up url with m | ⟨st, body⟩
  · rw [hr] at hf
    simp only [failReply, Option.some.injEq] at hf
    rw [fetch_loop_transport up fuel url acc tr m hu hr, hf]
  · rw [hr] at hf
    by_cases h401 : st = 401
    · subst h401
      simp only [failReply, if_pos] at hf
      rw [fetch_loop_401 up fuel url acc tr body hu hr]
      rw [Option.some.injEq] at hf
      rw [hf]
    · by_cases hok : respOk st = true
      · simp [failReply, h401, hok] at hf
      · have hok' : respOk st = false := by
          simp only [Bool.not_eq_true] at hok; exact hok
        simp only [failReply, if_neg h401, hok', if_pos, Option.some.injEq] at hf
        rw [fetch_loop_badStatus up fuel url acc tr st body hu hr h401 hok', hf]

/-- If the loop raises, then the last URL it requested got a failing reply
mapped as `failReply` describes, every URL requested before it got a
non-failing reply, and the raised exception is independent of the records
accumulated so far (they are discarded, never delivered). -/
theorem fetch_loop_err_char (up : PyVal → UpstreamReply) :
    ∀ (fuel : Nat) (url : PyVal) (acc : List EmployeeRecord) (tr : List PyVal)
      (e : HTTPException) (tr' : List PyVal),
      fetch_loop up fuel url acc tr = some (.err e tr') →
      (∃ pre u, tr' = tr ++ pre ++ [u] ∧ failReply (up u) = some e ∧
        ∀ v ∈ pre, failReply (up v) = Option.none) ∧
      (∀ acc', fetch_loop up fuel url acc' tr = some (.err e tr')) := by
  intro fuel
  induction fuel with
  | zero =>
    intro url acc tr e tr' h
    rcases hu : truthy url <;> simp [fetch_loop, hu] at h
  | succ n ih =>
    intro url acc tr e tr' h
    rcases hu : truthy url
    · rw [fetch_loop_stop up (n+1) url acc tr hu] at h
      simp at h
    · rcases hr : up url with m | ⟨st, body⟩
      · rw [fetch_loop_transport up n url acc tr m hu hr] at h
        simp only [Option.some.injEq, FetchResult.err.injEq] at h
        obtain ⟨he, ht⟩ := h
        refine ⟨⟨[], url, by simp [ht.symm], by rw [hr]; simp [failReply, he], by simp⟩, ?_⟩
        intro acc'
        rw [fetch_loop_transport up n url acc' tr m hu hr, he, ht]
      · by_cases h401 : st = 401
        · subst h401
          rw [fetch_loop_401 up n url acc tr body hu hr] at h
          simp only [Option.some.injEq, FetchResult.err.injEq] at h
          obtain ⟨he, ht⟩ := h
          refine ⟨⟨[], url, by simp [ht.symm], by rw [hr]; simp [failReply, he], by simp⟩, ?_⟩
          intro acc'
          rw [fetch_loop_401 up n url acc' tr body hu hr, he, ht]
        · by_cases hok : respOk st = true
          · rcases hrec : pageRecords body with m | recs
            · rw [fetch_loop_crashPage up n url acc tr st body m hu hr h401 hok hrec] at h
              simp at h
            · -- records converted: the loop continued
              rw [fetch_loop_okPage up n url acc tr st body recs hu hr h401 hok hrec] at h
              obtain ⟨⟨pre, u, ht, hfail, hpre⟩, hacc⟩ := ih _ _ _ _ _ h
              refine ⟨⟨url :: pre, u, by simp [ht], hfail, ?_⟩, ?_⟩
              · intro v hv
                rcases List.mem_cons.mp hv with rfl | hv
                · rw [hr]; simp [failReply, h401, hok]
                · exact hpre v hv
              · intro acc'
                rw [fetch_loop_okPage up n url acc' tr st body recs hu hr h401 hok hrec]
                exact hacc (acc' ++ recs)
          · have hok' : respOk st = false := by
              simp [Bool.not_eq_true] at hok; exact hok
            rw [fetch_loop_badStatus up n url acc tr st body hu hr h401 hok'] at h
            simp only [Option.some.injEq, FetchResult.err.injEq] at h
            obtain ⟨he, ht⟩ := h
            refine ⟨⟨[], url, by simp [ht.symm], by rw [hr]; simp [failReply, h401, hok', he],
              by simp⟩, ?_⟩
            intro acc'
            rw [fetch_loop_badStatus up n url acc' tr st body hu hr h401 hok', he, ht]

/-- C4: the fetch raises an `HTTPException` exactly when some page's HTTP
call fails, with the mapping of `failReply` (upstream 401 to local 401;
transport failure to local 502 whose detail carries the error text; any
other non-success status to local 502 naming the status); all calls before
the failing one succeeded, and the raised error is independent of the
records accumulated from earlier pages — they are never delivered. -/
theorem fetch_error_mapping (up : PyVal → UpstreamReply) :
    (∀ (m : String) (b : PyVal) (st : Nat),
      failReply (.transportError m) = some ⟨502, "Network error: " ++ m⟩ ∧
      failReply (.response 401 b) = some ⟨401, "Unauthorized: invalid token"⟩ ∧
      (st ≠ 401 → respOk st = false →
        failReply (.response st b) = some ⟨502, "Upstream error: " ++ toString st⟩) ∧
      (st ≠ 401 → respOk st = true → failReply (.response st b) = Option.none)) ∧
    (∀ (fuel : Nat) (url : PyVal) (acc : List EmployeeRecord) (tr : List PyVal)
      (e : HTTPException), truthy url = true → failReply (up url) = some e →
      fetch_loop up (fuel + 1) url acc tr = some (.err e (tr ++ [url]))) ∧
    (∀ (fuel : Nat) (url : PyVal) (acc : List EmployeeRecord) (tr : List PyVal)
      (e : HTTPException) (tr' : List PyVal),
      fetch_loop up fuel url acc tr = some (.err e tr') →
      (∃ pre u, tr' = tr ++ pre ++ [u] ∧ failReply (up u) = some e ∧
        ∀ v ∈ pre, failReply (up v) = Option.none) ∧
      (∀ acc', fetch_loop up fuel url acc' tr = some (.err e tr'))) := by
  refine ⟨?_, ?_, ?_⟩
  · intro m b st
    refine ⟨rfl, rfl, ?_, ?_⟩
    · intro h401 hok
      simp [failReply, h401, hok]
    · intro h401 hok
      simp [failReply, h401, hok]
  · intro fuel url acc tr e hu hf
    exact fetch_loop_failStep up fuel url acc tr e hu hf
  · intro fuel url acc tr e tr' h
    exact fetch_loop_err_char up fuel url acc tr e tr' h

/-- Upstream that serves a first full page and then answers 401. -/
def mockUp401 : PyVal → UpstreamReply := fun u =>
  match u with
  | .str s =>
    if s = WORKABLE_BASE then .response 200 (mkPageBody [mockItem 1, mockItem 2] (some "p2"))
    else .response 401 (.dict [])
  | _ => .transportError "invalid url"

/-- C4 witness: with a mocked 401 on the second page, the whole request
fails with a local 401 and the two records of page 1 are discarded. -/
theorem fetch_error_mapping_witness :
    fetch_all_employees mockUp401 2 =
      some (.err ⟨401, "Unauthorized: invalid token"⟩ [.str WORKABLE_BASE, .str "p2"]) := by
  have hstep := (fetch_error_mapping mockUp401).2.1 0 (.str "p2") [mockRecord 1, mockRecord 2]
    [.str WORKABLE_BASE] ⟨401, "Unauthorized: invalid token"⟩ (by decide) rfl
  have hopen : fetch_all_employees mockUp401 2 =
      fetch_loop mockUp401 1 (.str "p2") [mockRecord 1, mockRecord 2] [.str WORKABLE_BASE] := by
    rw [fetch_all_employees,
      fetch_loop_okPage mockUp401 1 (.str WORKABLE_BASE) [] [] 200
        (mkPageBody [mockItem 1, mockItem 2] (some "p2")) [mockRecord 1, mockRecord 2]
        (by decide) rfl (by decide) (by decide) rfl]
    rfl
  rw [hopen]
  simpa using hstep

/-! ## Page-shape helper lemmas (shared by several claims) -/

theorem convert_item_nondict (e : PyVal) (h : e.isDict = false) :
    convert_item e = .error "AttributeError: object has no attribute get" := by
  cases e <;> simp_all [convert_item, PyVal.isDict]

theorem convertItems_cons_ok (a : PyVal) (as : List PyVal) (r : EmployeeRecord)
    (h : convert_item a = .ok r) :
    convertItems (a :: as) =
      (match convertItems as with
        | .ok rs => .ok (r :: rs)
        | .error m => .error m) := by
  simp [convertItems, h]

theorem convertItems_append_err (pre : List PyVal) (e : PyVal) (post : List PyVal)
    (hnd : e.isDict = false) :
    ∀ rs, convertItems pre = .ok rs →
      convertItems (pre ++ e :: post) = .error "AttributeError: object has no attribute get" := by
  induction pre with
  | nil =>
    intro rs hpre
    simp [convertItems, convert_item_nondict e hnd]
  | cons a as ih =>
    intro rs hpre
    rcases h1 : convert_item a with m | r
    · rw [convertItems, h1] at hpre
      simp at hpre
    · rw [convertItems, h1] at hpre
      rcases h2 : convertItems as with m | rs2
      · rw [h2] at hpre; simp at hpre
      · rw [List.cons_append, convertItems_cons_ok a _ r h1, ih rs2 h2]

theorem pageRecords_falsy_employees (kvs : List (String × PyVal))
    (h : truthy ((PyVal.dict kvs).getd "employees" PyVal.null) = false) :
    pageRecords (.dict kvs) = .ok [] := by
  simp [pageRecords, pageItemsVal, h]

theorem pageRecords_bare_list (xs : List PyVal) (recs : List EmployeeRecord)
    (h : convertItems xs = .ok recs) : pageRecords (.list xs) = .ok recs := by
  cases xs with
  | nil =>
    injection h with h2
    simp [pageRecords, pageItemsVal, truthy, ← h2]
  | cons a as => simp [pageRecords, pageItemsVal, truthy, pyIter, h]

theorem pageItemsVal_scalar (body : PyVal) (hd : body.isDict = false)
    (hl : ∀ ys, body ≠ .list ys) : pageItemsVal body = PyVal.null := by
  cases body with
  | list ys => exact absurd rfl (hl ys)
  | dict kvs => simp [PyVal.isDict] at hd
  | null => rfl
  | bool b => rfl
  | int n => rfl
  | str s => rfl

theorem nextUrl_nondict (body : PyVal) (hd : body.isDict = false) :
    nextUrl body = PyVal.null := by
  cases body with
  | dict kvs => simp [PyVal.isDict] at hd
  | null => rfl
  | bool b => rfl
  | int n => rfl
  | str s => rfl
  | list xs => rfl

/-! ## C5, C6, C9, C10 -/

/-- Upstream whose single page carries `paging.next = ""` (and no items). -/
def mockUpEmptyNext : PyVal → UpstreamReply := fun _ =>
  .response 200 (mkPageBody [] (some ""))

/-- C5 counterexample: a page whose `paging.next` is the empty string — a
present, non-null value — terminates the loop after the single base-URL
call instead of continuing to a next URL as the claim states. -/
theorem next_present_nonnull_not_followed :
    (mkPageBody [] (some "")).getd "paging" PyVal.null = .dict [("next", .str "")] ∧
    PyVal.str "" ≠ PyVal.null ∧
    nextUrl (mkPageBody [] (some "")) = .str "" ∧
    fetch_all_employees mockUpEmptyNext 5 = some (.ok [] [.str WORKABLE_BASE]) := by
  refine ⟨rfl, by simp, rfl, rfl⟩

/-- C5 (amended): after a successful page response, the loop continues to
the body's `paging.next` value exactly when that value is truthy (for
strings: non-empty); otherwise — `next` absent, null, an empty string, or
otherwise falsy — the loop stops immediately with no further upstream
call. -/
theorem fetch_continue_iff_truthy_next (up : PyVal → UpstreamReply) (fuel : Nat)
    (url : PyVal) (acc : List EmployeeRecord) (tr : List PyVal) (st : Nat) (body : PyVal)
    (recs : List EmployeeRecord) (hu : truthy url = true) (hr : up url = .response st body)
    (h401 : st ≠ 401) (hok : respOk st = true) (hrec : pageRecords body = .ok recs) :
    (truthy (nextUrl body) = true →
      fetch_loop up (fuel + 1) url acc tr =
        fetch_loop up fuel (nextUrl body) (acc ++ recs) (tr ++ [url])) ∧
    (truthy (nextUrl body) = false →
      fetch_loop up (fuel + 1) url acc tr = some (.ok (acc ++ recs) (tr ++ [url]))) := by
  constructor
  · intro _
    exact fetch_loop_okPage up fuel url acc tr st body recs hu hr h401 hok hrec
  · intro hn
    rw [fetch_loop_okPage up fuel url acc tr st body recs hu hr h401 hok hrec,
      fetch_loop_stop up fuel _ _ _ hn]

/-- C5 witness: with the three-page mock the first page's `next` is truthy
and the loop continues there; with the empty-`next` mock the loop stops
after one call. -/
theorem fetch_continue_iff_truthy_next_witness :
    fetch_loop mockUp3 3 (.str WORKABLE_BASE) [] [] =
      fetch_loop mockUp3 2 (.str "p2") [mockRecord 1, mockRecord 2] [.str WORKABLE_BASE] ∧
    fetch_loop mockUpEmptyNext 1 (.str WORKABLE_BASE) [] [] =
      some (.ok [] [.str WORKABLE_BASE]) := by
  constructor
  · have h := (fetch_continue_iff_truthy_next mockUp3 2 (.str WORKABLE_BASE) [] [] 200
      (mkPageBody [mockItem 1, mockItem 2] (some "p2")) [mockRecord 1, mockRecord 2]
      (by decide) rfl (by decide) (by decide) rfl).1 (by decide)
    exact h
  · have h := (fetch_continue_iff_truthy_next mockUpEmptyNext 0 (.str WORKABLE_BASE) [] [] 200
      (mkPageBody [] (some "")) [] (by decide) rfl (by decide) (by decide) rfl).2 (by decide)
    exact h

/-- Upstream serving a mapping whose `employees` value is a number. -/
def mockUpBadItems : PyVal → UpstreamReply := fun _ =>
  .response 200 (.dict [("employees", .int 7)])

/-- C6 counterexample: a body that is neither a mapping-with-an-employees-
list nor a bare list is not always treated as an empty page: a mapping
whose `employees` value is truthy but not iterable makes the request crash
with `TypeError`, returning no result at all. -/
theorem employees_non_list_crashes :
    fetch_all_employees mockUpBadItems 5 =
      some (.crash "TypeError: object is not iterable" [.str WORKABLE_BASE]) ∧
    (∀ es tr, fetch_all_employees mockUpBadItems 5 ≠ some (.ok es tr)) := by
  refine ⟨rfl, ?_⟩
  intro es tr h
  rw [show fetch_all_employees mockUpBadItems 5 =
    some (.crash "TypeError: object is not iterable" [.str WORKABLE_BASE]) from rfl] at h
  simp at h

/-- C6 (amended): a bare-list body is one single complete page — every item
converts to one record and the loop stops with no further call (its
`paging` lookup is null); a body that is neither a mapping nor a list
contributes no records and likewise stops; and a mapping whose `employees`
value is absent or falsy contributes no records (pagination continuing per
its `paging`). A mapping with a truthy non-iterable `employees` value
instead crashes the request (see the counterexample). -/
theorem fetch_page_shapes (up : PyVal → UpstreamReply) (fuel : Nat) (url : PyVal)
    (acc : List EmployeeRecord) (tr : List PyVal) (st : Nat)
    (hu : truthy url = true) (h401 : st ≠ 401) (hok : respOk st = true) :
    (∀ xs recs, up url = .response st (.list xs) → convertItems xs = .ok recs →
      fetch_loop up (fuel + 1) url acc tr = some (.ok (acc ++ recs) (tr ++ [url]))) ∧
    (∀ body, up url = .response st body → body.isDict = false → (∀ ys, body ≠ .list ys) →
      pageRecords body = .ok [] ∧
      fetch_loop up (fuel + 1) url acc tr = some (.ok acc (tr ++ [url]))) ∧
    (∀ kvs, truthy ((PyVal.dict kvs).getd "employees" PyVal.null) = false →
      pageRecords (.dict kvs) = .ok []) := by
  refine ⟨?_, ?_, ?_⟩
  · intro xs recs hr hconv
    rw [fetch_loop_okPage up fuel url acc tr st (.list xs) recs hu hr h401 hok
        (pageRecords_bare_list xs recs hconv),
      show nextUrl (.list xs) = PyVal.null from rfl,
      fetch_loop_stop up fuel _ _ _ (by decide)]
  · intro body hr hd hl
    have hrec : pageRecords body = .ok [] := by
      simp [pageRecords, pageItemsVal_scalar body hd hl, truthy]
    refine ⟨hrec, ?_⟩
    rw [fetch_loop_okPage up fuel url acc tr st body [] hu hr h401 hok hrec,
      nextUrl_nondict body hd, fetch_loop_stop up fuel _ _ _ (by decide)]
    simp
  · intro kvs hf
    exact pageRecords_falsy_employees kvs hf

/-- Upstream serving a bare-list body (no `employees`/`paging` wrapper). -/
def mockUpBareList : PyVal → UpstreamReply := fun _ =>
  .response 200 (.list [mockItem 1, mockItem 2])

/-- Upstream serving a bare number as the whole body. -/
def mockUpIntBody : PyVal → UpstreamReply := fun _ => .response 200 (.int 3)

/-- C6 witness: the bare-list upstream yields its two records in one call;
a scalar body contributes no records; a null `employees` value contributes
no records. -/
theorem fetch_page_shapes_witness :
    fetch_all_employees mockUpBareList 1 =
      some (.ok [mockRecord 1, mockRecord 2] [.str WORKABLE_BASE]) ∧
    fetch_all_employees mockUpIntBody 1 = some (.ok [] [.str WORKABLE_BASE]) ∧
    pageRecords (.dict [("employees", PyVal.null)]) = .ok [] := by
  refine ⟨?_, ?_, ?_⟩
  · have h := (fetch_page_shapes mockUpBareList 0 (.str WORKABLE_BASE) [] [] 200
      (by decide) (by decide) (by decide)).1 [mockItem 1, mockItem 2]
      [mockRecord 1, mockRecord 2] rfl rfl
    exact h
  · have h := ((fetch_page_shapes mockUpIntBody 0 (.str WORKABLE_BASE) [] [] 200
      (by decide) (by decide) (by decide)).2.1 (.int 3) rfl rfl
      (fun ys h => PyVal.noConfusion h)).2
    exact h
  · exact (fetch_page_shapes mockUpIntBody 0 (.str WORKABLE_BASE) [] [] 200
      (by decide) (by decide) (by decide)).2.2 [("employees", PyVal.null)] (by decide)

/-- Upstream whose single page is a bare list containing a non-mapping
item after one well-formed item. -/
def mockUpNonDictItem : PyVal → UpstreamReply := fun _ =>
  .response 200 (.list [mockItem 1, .str "oops"])

/-- C9: when an item of a fetched page is not a mapping, the id lookup
(`e.get("id")`) raises `AttributeError` and the whole request crashes: no
record list is returned, whatever was accumulated before; a non-mapping
item is never converted into a record, although `extract_name` itself
tolerates non-mapping input. -/
theorem non_mapping_item_crashes (up : PyVal → UpstreamReply) (fuel : Nat) (url : PyVal)
    (acc : List EmployeeRecord) (tr : List PyVal) (st : Nat) (body : PyVal)
    (pre : List PyVal) (e : PyVal) (post : List PyVal) (rs : List EmployeeRecord)
    (hu : truthy url = true) (hr : up url = .response st body) (h401 : st ≠ 401)
    (hok : respOk st = true) (hitems : pageItemsVal body = .list (pre ++ e :: post))
    (hpre : convertItems pre = .ok rs) (hnd : e.isDict = false) :
    convert_item e = .error "AttributeError: object has no attribute get" ∧
    (∃ nm, extract_name e = .ok nm) ∧
    fetch_loop up (fuel + 1) url acc tr =
      some (.crash "AttributeError: object has no attribute get" (tr ++ [url])) ∧
    (∀ es tr', fetch_loop up (fuel + 1) url acc tr ≠ some (.ok es tr')) := by
  have hconv := convertItems_append_err pre e post hnd rs hpre
  have hrec : pageRecords body = .error "AttributeError: object has no attribute get" := by
    rw [pageRecords, hitems]
    have hne : truthy (PyVal.list (pre ++ e :: post)) = true := by
      cases pre <;> simp [truthy]
    rw [hne]
    simpa [pyIter] using hconv
  have hcrash := fetch_loop_crashPage up fuel url acc tr st body _ hu hr h401 hok hrec
  refine ⟨convert_item_nondict e hnd, ?_, hcrash, ?_⟩
  · cases e with
    | dict kvs => simp [PyVal.isDict] at hnd
    | null => exact ⟨_, rfl⟩
    | bool b => exact ⟨_, rfl⟩
    | int n => exact ⟨_, rfl⟩
    | str s => exact ⟨_, rfl⟩
    | list xs => exact ⟨_, rfl⟩
  · intro es tr' h
    rw [hcrash] at h
    simp at h

/-- C9 witness: the non-mapping second item crashes the whole fetch. -/
theorem non_mapping_item_crashes_witness :
    fetch_all_employees mockUpNonDictItem 3 =
      some (.crash "AttributeError: object has no attribute get" [.str WORKABLE_BASE]) := by
  have h := (non_mapping_item_crashes mockUpNonDictItem 2 (.str WORKABLE_BASE) [] [] 200
    (.list [mockItem 1, .str "oops"]) [mockItem 1] (.str "oops") [] [mockRecord 1]
    (by decide) rfl (by decide) (by decide) rfl rfl rfl).2.2.1
  exact h

/-- Upstream whose first page has no `employees` key but links to a second
page carrying two items. -/
def mockUpEmptyFirst : PyVal → UpstreamReply := fun u =>
  match u with
  | .str s =>
    if s = WORKABLE_BASE then .response 200 (.dict [("paging", .dict [("next", .str "p2")])])
    else .response 200 (mkPageBody [mockItem 1, mockItem 2] Option.none)
  | _ => .transportError "invalid url"

/-- C10: a page contributing zero records (a mapping with no `employees`
key, or a falsy `employees` value) does not terminate pagination — with a
truthy `paging.next` the fetcher continues there and records of later
pages are included in the result; a `paging.next` that is an empty string
terminates the loop exactly like an absent or null one. -/
theorem empty_page_pagination (up : PyVal → UpstreamReply) (fuel : Nat) (url : PyVal)
    (acc : List EmployeeRecord) (tr : List PyVal) (st : Nat) (kvs : List (String × PyVal))
    (hu : truthy url = true) (hr : up url = .response st (.dict kvs)) (h401 : st ≠ 401)
    (hok : respOk st = true)
    (hemp : truthy ((PyVal.dict kvs).getd "employees" PyVal.null) = false) :
    (∀ nx, nx ≠ "" → nextUrl (.dict kvs) = .str nx →
      fetch_loop up (fuel + 1) url acc tr = fetch_loop up fuel (.str nx) acc (tr ++ [url])) ∧
    (∀ nx us pages, nx ≠ "" → nextUrl (.dict kvs) = .str nx →
      ServesChain up nx us pages → (∀ p ∈ pages, pageConverts p) → pages.length ≤ fuel →
      fetch_loop up (fuel + 1) url acc tr =
        some (.ok (acc ++ (pages.map pageRecs).flatten)
          (tr ++ [url] ++ (nx :: us).map PyVal.str))) ∧
    (nextUrl (.dict kvs) = .str "" →
      fetch_loop up (fuel + 1) url acc tr = some (.ok acc (tr ++ [url]))) ∧
    (nextUrl (.dict kvs) = PyVal.null →
      fetch_loop up (fuel + 1) url acc tr = some (.ok acc (tr ++ [url]))) := by
  have hrec := pageRecords_falsy_employees kvs hemp
  have hstep := fetch_loop_okPage up fuel url acc tr st (.dict kvs) [] hu hr h401 hok hrec
  refine ⟨?_, ?_, ?_, ?_⟩
  · intro nx hne hnx
    rw [hstep, hnx]
    simp
  · intro nx us pages hne hnx hchain hconvs hfuel
    rw [hstep, hnx]
    simp only [List.append_nil]
    rw [fetch_loop_chain up hchain hconvs fuel acc (tr ++ [url]) hfuel]
  · intro hnx
    rw [hstep, hnx, fetch_loop_stop up fuel _ _ _ (by decide)]
    simp
  · intro hnx
    rw [hstep, hnx, fetch_loop_stop up fuel _ _ _ (by decide)]
    simp

/-- C10 witness: an empty first page linking onward yields the second
page's records in two calls; an empty-string `next` stops after one call. -/
theorem empty_page_pagination_witness :
    fetch_all_employees mockUpEmptyFirst 2 =
      some (.ok [mockRecord 1, mockRecord 2] [.str WORKABLE_BASE, .str "p2"]) ∧
    fetch_all_employees mockUpEmptyNext 1 = some (.ok [] [.str WORKABLE_BASE]) := by
  constructor
  · have h := (empty_page_pagination mockUpEmptyFirst 1 (.str WORKABLE_BASE) [] [] 200
      [("paging", .dict [("next", .str "p2")])] (by decide) rfl (by decide) (by decide)
      (by decide)).2.1 "p2" [] [⟨[mockItem 1, mockItem 2], Option.none⟩] (by decide) rfl
      (.last _ _ (by decide) rfl rfl) (by rintro p hp; simp at hp; subst hp; exact ⟨_, rfl⟩)
      (by simp)
    exact h
  · have h := (empty_page_pagination mockUpEmptyNext 0 (.str WORKABLE_BASE) [] [] 200
      [("employees", .list []), ("paging", .dict [("next", .str "")])] (by decide) rfl
      (by decide) (by decide) (by decide)).2.2.1 rfl
    exact h

/-! ## CSV round-trip lemmas -/

theorem csvParse_unquoted :
    ∀ (f : List Char), needsQuote f = false →
      ∀ (acc : List Char) (row : List (List Char)) (rows : List (List (List Char)))
        (rest : List Char),
        csvParseAux .plain acc row rows (f ++ rest) =
          csvParseAux .plain (acc ++ f) row rows rest := by
  intro f
  induction f with
  | nil =>
    intro _ acc row rows rest
    simp
  | cons c cs ih =>
    intro h acc row rows rest
    simp only [needsQuote, List.any_cons, Bool.or_eq_false_iff,
      decide_eq_false_iff_not] at h
    obtain ⟨⟨⟨⟨hc1, hc2⟩, hc3⟩, hc4⟩, hcs⟩ := h
    rw [List.cons_append]
    rw [show csvParseAux .plain acc row rows (c :: (cs ++ rest)) =
      csvParseAux .plain (acc ++ [c]) row rows (cs ++ rest) by
        simp [csvParseAux, hc1, hc2, hc3, hc4]]
    rw [ih hcs (acc ++ [c]) row rows rest]
    simp

theorem csvParse_quotedBody :
    ∀ (f : List Char) (acc : List Char) (row : List (List Char))
      (rows : List (List (List Char))) (rest : List Char),
      csvParseAux .quoted acc row rows (escQuotes f ++ rest) =
        csvParseAux .quoted (acc ++ f) row rows rest := by
  intro f
  induction f with
  | nil =>
    intro acc row rows rest
    simp [escQuotes]
  | cons c cs ih =>
    intro acc row rows rest
    by_cases hc : c = '"'
    · subst hc
      rw [show escQuotes ('"' :: cs) = '"' :: '"' :: escQuotes cs by simp [escQuotes]]
      rw [List.cons_append, List.cons_append]
      rw [show csvParseAux .quoted acc row rows ('"' :: ('"' :: (escQuotes cs ++ rest))) =
        csvParseAux .afterQuote acc row rows ('"' :: (escQuotes cs ++ rest)) by
          simp [csvParseAux]]
      rw [show csvParseAux .afterQuote acc row rows ('"' :: (escQuotes cs ++ rest)) =
        csvParseAux .quoted (acc ++ ['"']) row rows (escQuotes cs ++ rest) by
          simp [csvParseAux]]
      rw [ih (acc ++ ['"']) row rows rest]
      simp
    · rw [show escQuotes (c :: cs) = c :: escQuotes cs by simp [escQuotes, hc]]
      rw [List.cons_append]
      rw [show csvParseAux .quoted acc row rows (c :: (escQuotes cs ++ rest)) =
        csvParseAux .quoted (acc ++ [c]) row rows (escQuotes cs ++ rest) by
          simp [csvParseAux, hc]]
      rw [ih (acc ++ [c]) row rows rest]
      simp

/-- Reading one emitted field followed by a comma finishes that field. -/
theorem csvParse_field_comma (f : List Char) (row : List (List Char))
    (rows : List (List (List Char))) (rest : List Char) :
    csvParseAux .plain [] row rows (quoteField f ++ ',' :: rest) =
      csvParseAux .plain [] (row ++ [f]) rows rest := by
  by_cases hq : needsQuote f = true
  · rw [show quoteField f = '"' :: (escQuotes f ++ ['"']) by simp [quoteField, hq]]
    rw [List.cons_append]
    rw [show csvParseAux .plain [] row rows ('"' :: ((escQuotes f ++ ['"']) ++ ',' :: rest)) =
      csvParseAux .quoted [] row rows ((escQuotes f ++ ['"']) ++ ',' :: rest) by
        simp [csvParseAux]]
    rw [List.append_assoc]
    rw [csvParse_quotedBody f [] row rows (['"'] ++ ',' :: rest)]
    simp only [List.nil_append]
    rw [show csvParseAux .quoted f row rows (['"'] ++ ',' :: rest) =
      csvParseAux .afterQuote f row rows (',' :: rest) by simp [csvParseAux]]
    simp [csvParseAux]
  · have hq' : needsQuote f = false := by simpa using hq
    rw [show quoteField f = f by simp [quoteField, hq']]
    rw [csvParse_unquoted f hq' [] row rows (',' :: rest)]
    simp [csvParseAux]

/-- Reading one emitted field followed by `\r\n` finishes the row. -/
theorem csvParse_field_crlf (f : List Char) (row : List (List Char))
    (rows : List (List (List Char))) (rest : List Char) :
    csvParseAux .plain [] row rows (quoteField f ++ '\r' :: '\n' :: rest) =
      csvParseAux .plain [] [] (rows ++ [row ++ [f]]) rest := by
  by_cases hq : needsQuote f = true
  · rw [show quoteField f = '"' :: (escQuotes f ++ ['"']) by simp [quoteField, hq]]
    rw [List.cons_append]
    rw [show csvParseAux .plain [] row rows
        ('"' :: ((escQuotes f ++ ['"']) ++ '\r' :: '\n' :: rest)) =
      csvParseAux .quoted [] row rows ((escQuotes f ++ ['"']) ++ '\r' :: '\n' :: rest) by
        simp [csvParseAux]]
    rw [List.append_assoc]
    rw [csvParse_quotedBody f [] row rows (['"'] ++ '\r' :: '\n' :: rest)]
    simp only [List.nil_append]
    rw [show csvParseAux .quoted f row rows (['"'] ++ '\r' :: '\n' :: rest) =
      csvParseAux .afterQuote f row rows ('\r' :: '\n' :: rest) by simp [csvParseAux]]
    rw [show csvParseAux .afterQuote f row rows ('\r' :: '\n' :: rest) =
      csvParseAux .sawCR f row rows ('\n' :: rest) by simp [csvParseAux]]
    simp [csvParseAux]
  · have hq' : needsQuote f = false := by simpa using hq
    rw [show quoteField f = f by simp [quoteField, hq']]
    rw [csvParse_unquoted f hq' [] row rows ('\r' :: '\n' :: rest)]
    rw [show csvParseAux .plain ([] ++ f) row rows ('\r' :: '\n' :: rest) =
      csvParseAux .sawCR ([] ++ f) row rows ('\n' :: rest) by simp [csvParseAux]]
    simp [csvParseAux]

/-- Reading one emitted row appends exactly that row. -/
theorem csvParse_row :
    ∀ (fs : List (List Char)), fs ≠ [] →
      ∀ (row : List (List Char)) (rows : List (List (List Char))) (rest : List Char),
        csvParseAux .plain [] row rows (rowChars fs ++ rest) =
          csvParseAux .plain [] [] (rows ++ [row ++ fs]) rest := by
  intro fs
  induction fs with
  | nil => intro h; exact absurd rfl h
  | cons f gs ih =>
    intro _ row rows rest
    cases gs with
    | nil =>
      rw [show rowChars [f] = quoteField f ++ '\r' :: '\n' :: [] by
        simp [rowChars, rowBody]]
      rw [List.append_assoc]
      rw [show ('\r' :: '\n' :: []) ++ rest = '\r' :: '\n' :: rest by simp]
      exact csvParse_field_crlf f row rows rest
    | cons g gs2 =>
      rw [show rowChars (f :: g :: gs2) = quoteField f ++ ',' :: rowChars (g :: gs2) by
        simp [rowChars, rowBody]]
      rw [List.append_assoc]
      rw [show (',' :: rowChars (g :: gs2)) ++ rest = ',' :: (rowChars (g :: gs2) ++ rest) by
        simp]
      rw [csvParse_field_comma f row rows (rowChars (g :: gs2) ++ rest)]
      rw [ih (by simp) (row ++ [f]) rows rest]
      simp

/-- Reading a sequence of emitted rows appends exactly those rows. -/
theorem csvParse_rows :
    ∀ (rowsIn : List (List (List Char))), (∀ r ∈ rowsIn, r ≠ []) →
      ∀ (rows : List (List (List Char))),
        csvParseAux .plain [] [] rows ((rowsIn.map rowChars).flatten) = rows ++ rowsIn := by
  intro rowsIn
  induction rowsIn with
  | nil =>
    intro _ rows
    simp [csvParseAux]
  | cons r rs ih =>
    intro h rows
    rw [List.map_cons, List.flatten_cons]
    rw [csvParse_row r (h r (by simp)) [] rows ((rs.map rowChars).flatten)]
    rw [ih (fun q hq => h q (by simp [hq])) (rows ++ [[] ++ r])]
    simp

theorem stringMk_data (s : String) : String.mk s.data = s := rfl

theorem join_data (l : List String) : (String.join l).data = (l.map String.data).flatten := by
  have aux : ∀ (l : List String) (s : String),
      (l.foldl (fun r t => r ++ t) s).data = s.data ++ (l.map String.data).flatten := by
    intro l
    induction l with
    | nil => intro s; simp
    | cons t ts ih =>
      intro s
      rw [List.foldl_cons, ih (s ++ t)]
      simp
  simpa [String.join] using aux l ""

/-- The full emit-then-parse round trip for the CSV presenter: parsing the
concatenated chunks recovers the header row and exactly one row of cell
strings per record. -/
theorem csvParse_iter_csv (es : List EmployeeRecord) :
    csvParse (String.join (iter_csv es)) =
      ["id", "name"] :: es.map (fun e => [csvCell e.id, csvCell e.name]) := by
  unfold csvParse
  rw [join_data]
  have hmap : (iter_csv es).map String.data =
      ((["id", "name"] :: es.map (fun e => [csvCell e.id, csvCell e.name])).map
        (fun r => r.map String.data)).map rowChars := by
    simp [iter_csv, writerow, List.map_map, Function.comp]
  rw [hmap]
  rw [csvParse_rows
    ((["id", "name"] :: es.map (fun e => [csvCell e.id, csvCell e.name])).map
      (fun r => r.map String.data)) ?hne []]
  case hne =>
    intro r hr
    simp only [List.map_cons, List.mem_cons, List.mem_map] at hr
    rcases hr with rfl | ⟨q, ⟨e, _, rfl⟩, rfl⟩
    · simp
    · simp
  simp [List.map_map, Function.comp, stringMk_data]

/-- The two records of the spec's CSV round-trip example. -/
def demoRecords : List EmployeeRecord :=
  [⟨.str "1", .str "Jane Doe"⟩, ⟨.str "2", .str "Bob, Jr."⟩]

/-- C7: the CSV presenter emits the header `id,name` and then exactly one
row per record, a null id becoming the empty field, with QUOTE_MINIMAL
quoting (fields containing delimiter, quote, or newline quoted; embedded
quotes doubled), so that parsing the emitted text with a conventional CSV
reader recovers the header and the records' cell strings; on the two demo
records the comma-containing name comes out quoted and parses back to the
same two rows. -/
theorem iter_csv_roundtrip :
    (∀ es, iter_csv es =
      writerow ["id", "name"] :: es.map (fun e => writerow [csvCell e.id, csvCell e.name])) ∧
    (∀ es, (iter_csv es).length = es.length + 1) ∧
    csvCell PyVal.null = "" ∧
    (∀ f, needsQuote f = true → quoteField f = '"' :: (escQuotes f ++ ['"'])) ∧
    (∀ es, csvParse (String.join (iter_csv es)) =
      ["id", "name"] :: es.map (fun e => [csvCell e.id, csvCell e.name])) ∧
    iter_csv demoRecords = ["id,name\r\n", "1,Jane Doe\r\n", "2,\"Bob, Jr.\"\r\n"] ∧
    csvParse (String.join (iter_csv demoRecords)) =
      [["id", "name"], ["1", "Jane Doe"], ["2", "Bob, Jr."]] := by
  refine ⟨fun es => rfl, fun es => by simp [iter_csv], rfl, ?_, csvParse_iter_csv, rfl, rfl⟩
  intro f hf
  simp [quoteField, hf]

/-- C7 witness: on the demo records the comma-containing field is quoted by
the quoting rule, and the stream has a header plus one chunk per record. -/
theorem iter_csv_roundtrip_witness :
    quoteField ("Bob, Jr.".data) = '"' :: (escQuotes "Bob, Jr.".data ++ ['"']) ∧
    (iter_csv demoRecords).length = 3 := by
  refine ⟨iter_csv_roundtrip.2.2.2.1 "Bob, Jr.".data (by decide), ?_⟩
  have h := iter_csv_roundtrip.2.1 demoRecords
  simpa using h

theorem jsonPairs_envelope (es : List EmployeeRecord) :
    jsonPairs (employeesEnvelope es) = some (es.map fun e => (e.id, e.name)) := by
  show (es.map employeeJson).mapM _ = _
  induction es with
  | nil => rfl
  | cons e es ih =>
    simp only [List.map_cons, List.mapM_cons, employeeJson, ih]
    rfl

theorem csvPairs_iter_csv (es : List EmployeeRecord) :
    csvPairs (iter_csv es) = some (es.map fun e => (csvCell e.id, csvCell e.name)) := by
  unfold csvPairs
  rw [csvParse_iter_csv]
  dsimp only
  rw [if_pos rfl]
  induction es with
  | nil => rfl
  | cons e es ih =>
    simp only [List.map_cons, List.mapM_cons, ih]
    rfl

/-- C8: both endpoints present one and the same fetched list — for any
upstream on which the fetch succeeds, the JSON endpoint returns the
envelope over the fetched records and the CSV endpoint their chunk stream,
and the (id, name) pairs read back from the CSV are exactly the (id, name)
pairs of the JSON records, in the same order, rendered by the cell
function (null id as the empty string). -/
theorem json_csv_consistent (up : PyVal → UpstreamReply) (fuel : Nat)
    (es : List EmployeeRecord) (tr : List PyVal)
    (h : fetch_all_employees up fuel = some (.ok es tr)) :
    api_employees up fuel = some (.ok (employeesEnvelope es)) ∧
    api_employees_csv up fuel = some (.ok (iter_csv es)) ∧
    jsonPairs (employeesEnvelope es) = some (es.map fun e => (e.id, e.name)) ∧
    csvPairs (iter_csv es) = some (es.map fun e => (csvCell e.id, csvCell e.name)) ∧
    csvPairs (iter_csv es) =
      (jsonPairs (employeesEnvelope es)).map
        (fun l => l.map fun p => (csvCell p.1, csvCell p.2)) := by
  refine ⟨?_, ?_, jsonPairs_envelope es, csvPairs_iter_csv es, ?_⟩
  · simp [api_employees, h]
  · simp [api_employees_csv, h]
  · rw [jsonPairs_envelope es, csvPairs_iter_csv es]
    simp [List.map_map, Function.comp]

/-- C8 witness: on the bare-list mock both presentations carry the same two
(id, name) pairs in the same order. -/
theorem json_csv_consistent_witness :
    jsonPairs (employeesEnvelope [mockRecord 1, mockRecord 2]) =
      some [(.str "1", .str "E1"), (.str "2", .str "E2")] ∧
    csvPairs (iter_csv [mockRecord 1, mockRecord 2]) =
      some [("1", "E1"), ("2", "E2")] := by
  have h := json_csv_consistent mockUpBareList 1 [mockRecord 1, mockRecord 2]
    [.str WORKABLE_BASE] rfl
  exact ⟨h.2.2.1.trans rfl, h.2.2.2.1.trans rfl⟩

/-- C2 (refuting evaluation): on `{"first_name": "C", "last_name": null}`
the chain reaches `first_name + " " + last_name`, but `dict.get` returns the
stored `None` rather than the `""` default, so the concatenation raises
`TypeError` instead of returning a string. -/
theorem extract_name_raises_on_null_last_name :
    extract_name (.dict [("first_name", .str "C"), ("last_name", PyVal.null)]) =
      .error "TypeError: can only concatenate str to str" := rfl
